import Mathlib

/-!
Verification development for the JPEG XL batch-conversion script
(`src/main.py`).  The script's pure helpers are embedded directly; the
external-process calls (`subprocess.run` with `check=True`) are embedded as
`Except`-valued functions over an explicit exit-status environment, and the
per-file pipeline loop `convert_images` is embedded as a fold that reifies
each file's outcome (skipped at its relocated path, or finalized at its
moved-back path together with the recorded size delta).
-/

namespace JXLScript

/-! ## Python string and `os.path` primitives (POSIX semantics) -/

/-- Uppercase a string character-wise; embeds Python `str.upper()` on the
ASCII extension strings the script compares. -/
def pyUpper (s : String) : String :=
  ⟨s.data.map Char.toUpper⟩

/-- Python slicing `s[n:]`. -/
def strDrop (s : String) (n : Nat) : String :=
  ⟨s.data.drop n⟩

/-- Python `s.split("\n")[0]`: the prefix of `s` before the first newline. -/
def firstLine (s : String) : String :=
  ⟨s.data.takeWhile (fun c => c ≠ '\n')⟩

/-- Python `s.replace(".", "")`: remove every dot. -/
def pyReplaceDot (s : String) : String :=
  ⟨s.data.filter (fun c => c != '.')⟩

/-- Index of the last occurrence of `c` in `l` (Python `str.rfind`). -/
def lastIndexOf (l : List Char) (c : Char) : Option Nat :=
  match l with
  | [] => none
  | a :: rest =>
    match lastIndexOf rest c with
    | some i => some (i + 1)
    | none => if a = c then some 0 else none

/-- Python `os.path.splitext` (posixpath): split at the last dot of the last
path component, provided some earlier character of that component is not a
dot (so purely-leading dots never start an extension). -/
def splitext (p : String) : String × String :=
  let l := p.data
  let start := match lastIndexOf l '/' with
    | none => 0
    | some s => s + 1
  match lastIndexOf l '.' with
  | none => (p, "")
  | some d =>
    if start ≤ d ∧ ((List.range d).drop start).any (fun i => l.getD i '.' != '.') then
      (⟨l.take d⟩, ⟨l.drop d⟩)
    else (p, "")

/-- Python `os.path.basename`: everything after the last `/`. -/
def basename (p : String) : String :=
  match lastIndexOf p.data '/' with
  | none => p
  | some i => ⟨p.data.drop (i + 1)⟩

/-- Python `os.path.dirname`: everything before the last `/`, with trailing
slashes stripped unless the head is all slashes. -/
def dirname (p : String) : String :=
  match lastIndexOf p.data '/' with
  | none => ""
  | some i =>
    let head := p.data.take (i + 1)
    if head.all (fun c => c == '/') then ⟨head⟩
    else ⟨(head.reverse.dropWhile (fun c => c == '/')).reverse⟩

/-- Python `os.path.join` for two components (posixpath). -/
def pyJoin (a b : String) : String :=
  if b.data.headD ' ' = '/' then b
  else if a = "" then b
  else if a.data.getLastD ' ' = '/' then a ++ b
  else a ++ "/" ++ b

/-- Exceptions the script can raise: `CalledProcessError` from
`subprocess.run(..., check=True)`, the explicit `OSError` in
`recover_image`, `SystemExit` from `check_path`'s `sys.exit(1)` on a
missing path, and `OverflowError` from converting a too-large `int` to
`float`. -/
inductive PyExn where
  | calledProcessError (returncode : Nat)
  | osError
  | systemExit (code : Nat)
  | overflowError
  deriving Repr, DecidableEq

/-! ## `readable_bytes` (src/main.py lines 84-103)

The source compares `abs(num_of_bytes) < 1024.0` (exact for both `int` and
`float` operands in CPython) and true-divides by `1024.0`.  The first
division converts the original `int` to `float`, raising `OverflowError`
when its magnitude is at least `2 ^ 1024 - 2 ^ 970` (everything smaller
rounds to a finite double); after that the value is a float and dividing by
the power of two `1024` is exact, so the float arithmetic is embedded as
exact rational arithmetic guarded by that conversion bound.  The
`"%3.1f %s"` formatting is abstracted to the pair of the numeric value and
the unit string. -/

/-- The smallest integer magnitude whose conversion to an IEEE-754 double
overflows: `2 ^ 1024 - 2 ^ 970`; everything below it rounds to at most the
largest finite double `2 ^ 1024 - 2 ^ 971`. -/
def floatOverflowBound : ℚ := 2 ^ 1024 - 2 ^ 970

/-- The loop body of `readable_bytes`: walk the unit list, returning as soon
as the magnitude drops below 1024, else divide and continue; falling off the
end of the list is Python's implicit `return None` (`.ok none`).  `isInt`
records whether the value is still the original `int`: the first
`num_of_bytes /= 1024.0` raises `OverflowError` when the int's magnitude is
at least `floatOverflowBound`; afterwards the value is a float and the
exact divisions by `1024` cannot overflow. -/
def readable_bytes_go (q : ℚ) (isInt : Bool) :
    List String → Except PyExn (Option (ℚ × String))
  | [] => .ok none
  | unit :: units =>
    if |q| < 1024 then .ok (some (q, unit))
    else if isInt = true ∧ floatOverflowBound ≤ |q| then .error PyExn.overflowError
    else readable_bytes_go (q / 1024) false units

/-- `readable_bytes(num_of_bytes)`: units `bytes/KB/MB/GB/TB`, starting from
the integer argument. -/
def readable_bytes (num_of_bytes : Int) : Except PyExn (Option (ℚ × String)) :=
  readable_bytes_go (num_of_bytes : ℚ) true ["bytes", "KB", "MB", "GB", "TB"]

/-! ## `is_supported_by_jpegxl` (src/main.py lines 37-57) -/

/-- `is_supported_by_jpegxl(input)`: the extension (without the dot) of
`input` equals, up to `upper()`, one of the encoder-supported types. -/
def is_supported_by_jpegxl (input : String) : Bool :=
  let input_type := strDrop (splitext input).2 1
  let supported_types : List String :=
    ["exr", "gif", "jpg", "jpeg", "pam", "pgm", "ppm", "pfm", "pgx", "png", "apng", "jxl"]
  supported_types.any (fun t => pyUpper input_type == pyUpper t)

/-! ## `find_specific_types` (src/main.py lines 224-249) -/

/-- The extension string the classifier compares:
`os.path.splitext(file)[1].replace(".", "")`. -/
def classifierExtension (file : String) : String :=
  pyReplaceDot (splitext file).2

/-- Body of the classifier's inner `for required_extension in extensions`
loop: append `file` when the entry matches exactly, else when the entry's
uppercased form matches; the source's `continue` only skips the second test
for the same entry, it does not leave the loop. -/
def classifierInner (file : String) (result : List String) (required_extension : String) :
    List String :=
  let current_file_extension := classifierExtension file
  if required_extension = current_file_extension then result ++ [file]
  else if pyUpper required_extension = current_file_extension then result ++ [file]
  else result

/-- `find_specific_types(files, extensions)`: the nested accumulation loop. -/
def find_specific_types (files : List String) (extensions : List String) : List String :=
  files.foldl (fun result file => extensions.foldl (classifierInner file) result) []

/-! ## `prioritize_list` (src/main.py lines 252-315)

The source reads each file's size with `get_size` (a checked
`os.path.getsize`); sizes are supplied here as a function from paths to
byte counts. -/

/-- `current_type.upper() == "JPEG" or current_type.upper() == "JPG"` where
`current_type = os.path.splitext(file)[1][1:]`. -/
def is_jpeg_file (file : String) : Bool :=
  let current_type := strDrop (splitext file).2 1
  pyUpper current_type == "JPEG" || pyUpper current_type == "JPG"

/-- `is_small`: `current_size <= comparison_size` with the constant
`comparison_size = 1000000`. -/
def is_small_file (sz : String → Nat) (file : String) : Bool :=
  sz file ≤ 1000000

/-- One iteration of the prioritizer loop over the four bucket lists
`(small_jpegs, big_jpegs, small_images, big_images)`.  The source's final
two branches (`is_image and is_big` and the unreachable fallback) both
append to `big_images`, so they are the single `else` here. -/
def prioritizeStep (sz : String → Nat)
    (b : List String × List String × List String × List String) (file : String) :
    List String × List String × List String × List String :=
  let is_small := is_small_file sz file
  let is_jpeg := is_jpeg_file file
  if is_jpeg && is_small then (b.1 ++ [file], b.2.1, b.2.2.1, b.2.2.2)
  else if is_jpeg && !is_small then (b.1, b.2.1 ++ [file], b.2.2.1, b.2.2.2)
  else if !is_jpeg && is_small then (b.1, b.2.1, b.2.2.1 ++ [file], b.2.2.2)
  else (b.1, b.2.1, b.2.2.1, b.2.2.2 ++ [file])

/-- `prioritize_list(files)`: fill the four buckets in input order, then
return `small_jpegs + big_jpegs + small_images + big_images`. -/
def prioritize_list (sz : String → Nat) (files : List String) : List String :=
  let b := files.foldl (prioritizeStep sz) ([], [], [], [])
  b.1 ++ b.2.1 ++ b.2.2.1 ++ b.2.2.2

/-! ## External-process adapters (src/main.py lines 11-34, 121-166, 169-201,
406-497)

Every adapter calls `subprocess.run(command, capture_output=True,
check=True)`.  With `check=True` a non-zero exit status raises
`subprocess.CalledProcessError` before the Python code can look at
`returncode`, so the adapters are embedded as `Except`-valued functions over
the exit status the external tool would produce.  Filesystem effects
(`os.rename`, `shutil.move`, `os.remove`) are reified in the returned paths
and outcomes; `delete_file` swallows its own `OSError`, so a failed delete
never changes control flow and is not modelled further.  `check_path` exits
only for paths that do not exist; every path handed to these adapters by
the pipeline exists at that point (it was just moved or created), with one
exception modelled below: `get_size` on the `.jxl` output after the encode,
which `sys.exit(1)`s when that output was never produced. -/

/-- `subprocess.run(command, capture_output=True, check=check)`: with
`check`, a non-zero exit status raises `CalledProcessError`; otherwise the
completed process carries its `returncode`. -/
def subprocessRun (returncode : Nat) (check : Bool) : Except PyExn Nat :=
  if check = true ∧ returncode ≠ 0 then .error (PyExn.calledProcessError returncode)
  else .ok returncode

/-- `is_corrupt(input)` (lines 11-34): run `magick identify -regard-warnings`
with `check=True` and report `returncode == 1`. -/
def is_corrupt (identifyExit : Nat) (input : String) : Except PyExn Bool :=
  match subprocessRun identifyExit true with
  | .error e => .error e
  | .ok rc => if rc = 1 then .ok true else .ok false

/-- `transfer_metadata(input, output)` (lines 121-143): run `exiftool
-TagsFromFile` with `check=True`. -/
def transfer_metadata (metaExit : Nat) (input : String) (output : String) :
    Except PyExn Unit :=
  match subprocessRun metaExit true with
  | .error e => .error e
  | .ok _ => .ok ()

/-- `add_exif_title(input)` (lines 146-166): run `exiftool -Title=...` with
`check=True`. -/
def add_exif_title (titleExit : Nat) (input : String) : Except PyExn Unit :=
  match subprocessRun titleExit true with
  | .error e => .error e
  | .ok _ => .ok ()

/-- `restore_filetype(input)` (lines 169-201): read the true format from the
stdout of `magick identify -format '%m\n'` (first line, first character
dropped), rename `input` to `input + "." + extension` and return the new
path. -/
def restore_filetype (formatExit : Nat) (formatStdout : String) (input : String) :
    Except PyExn String :=
  match subprocessRun formatExit true with
  | .error e => .error e
  | .ok _ =>
    let actual_extension := strDrop (firstLine formatStdout) 1
    let new_path := input ++ "." ++ actual_extension
    .ok new_path

/-- `convert_to_png(input)` (lines 441-467): run `magick ... -auto-orient`
with `check=True`; on output existence the stale input is deleted (failures
swallowed); the `input + ".PNG"` path is returned either way. -/
def convert_to_png (pngExit : Nat) (input : String) : Except PyExn String :=
  let output := input ++ ".PNG"
  match subprocessRun pngExit true with
  | .error e => .error e
  | .ok _ => .ok output

/-- `convert_to_jpegxl(input)` (lines 406-438): run `cjxl` with
`check=True`; only if the `input + ".jxl"` output exists are metadata
transferred, the title stamped and the stale input deleted; the output path
is returned either way. -/
def convert_to_jpegxl (cjxlExit : Nat) (metaExit : Nat) (titleExit : Nat)
    (jxlOutExists : Bool) (input : String) : Except PyExn String :=
  let output := input ++ ".jxl"
  match subprocessRun cjxlExit true with
  | .error e => .error e
  | .ok _ =>
    if jxlOutExists then
      match transfer_metadata metaExit input output with
      | .error e => .error e
      | .ok _ =>
        match add_exif_title titleExit output with
        | .error e => .error e
        | .ok _ => .ok output
    else .ok output

/-- `recover_image(input)` (lines 470-497): run `magick ... -auto-orient`
with `check=True` onto `input + splitext(input)[1]`; the explicit `raise
OSError` on `returncode == 1` is unreachable under `check=True` but embedded
faithfully. -/
def recover_image (recoverExit : Nat) (input : String) : Except PyExn String :=
  let output := input ++ (splitext input).2
  match subprocessRun recoverExit true with
  | .error e => .error e
  | .ok rc => if rc = 1 then .error PyExn.osError else .ok output

/-! ## The per-file pipeline (`convert_images`, src/main.py lines 500-593) -/

/-- Exit statuses and tool outputs of the external calls made while
processing one file, together with the sizes `get_size` reads before and
after conversion. -/
structure ToolEnv where
  identifyExit : Nat
  recoverExit : Nat
  formatExit : Nat
  formatStdout : String
  pngExit : Nat
  cjxlExit : Nat
  jxlOutExists : Bool
  metaExit : Nat
  titleExit : Nat
  oldSize : Nat
  newSize : Nat
  deriving Repr, DecidableEq

/-- The working directory `os.path.normpath(os.path.join(
os.path.splitdrive(file)[0], "/JPEG XL Converter"))`: on POSIX the drive is
`""`, joining with an absolute second argument yields it unchanged, and
`normpath` leaves this path as it is. -/
def temporaryPath : String := "/JPEG XL Converter"

/-- Terminal state of one file of the loop body: a corrupt file whose
recovery failed is left at its relocated working path (`continue`); every
other completed file is moved back next to its original directory and its
`old_size - new_size` delta is added to the running total. -/
inductive FileOutcome where
  | skipped (relocatedPath : String)
  | finalized (finalPath : String) (delta : Int)
  deriving Repr, DecidableEq

/-- The tail of the loop body after corruption handling: restore the true
extension, normalize to PNG only when the restored extension is not
encoder-supported, encode to JPEG XL, read the output's size (which
`sys.exit(1)`s if the encoded output does not exist), and move the result
back to the original directory recording `old_size - new_size`. -/
def finishFile (env : ToolEnv) (original_path : String) (old_size : Nat)
    (current_file : String) : Except PyExn FileOutcome :=
  match restore_filetype env.formatExit env.formatStdout current_file with
  | .error e => .error e
  | .ok restored =>
    let afterNormalize : Except PyExn String :=
      if is_supported_by_jpegxl restored = false then convert_to_png env.pngExit restored
      else .ok restored
    match afterNormalize with
    | .error e => .error e
    | .ok normalized =>
      match convert_to_jpegxl env.cjxlExit env.metaExit env.titleExit env.jxlOutExists
          normalized with
      | .error e => .error e
      | .ok final =>
        -- `new_size = get_size(current_file, stdscr)` (main.py:576): `check_path` calls
        -- `sys.exit(1)` when the encoded output was never produced on disk.
        if env.jxlOutExists then
          .ok (FileOutcome.finalized (pyJoin original_path (basename final))
            ((old_size : Int) - (env.newSize : Int)))
        else .error (PyExn.systemExit 1)

/-- One iteration of the `for file in files` loop: relocate the file into
the working directory, read its size, probe for corruption, attempt recovery
inside the `try`/`except Exception` (whose failure skips the file), then run
the shared tail.  Exceptions raised outside that `try` propagate. -/
def processFile (env : ToolEnv) (file : String) : Except PyExn FileOutcome :=
  let original_path := dirname file
  let relocated := pyJoin temporaryPath (basename file)
  let old_size := env.oldSize
  match is_corrupt env.identifyExit relocated with
  | .error e => .error e
  | .ok corrupt =>
    if corrupt then
      match recover_image env.recoverExit relocated with
      | .error _ => .ok (FileOutcome.skipped relocated)
      | .ok recovered => finishFile env original_path old_size recovered
    else finishFile env original_path old_size relocated

/-- The loop of `convert_images`: thread `current_space_gains` through the
files, record each file's outcome, and abort the whole run on the first
uncaught exception. -/
def convert_images_go (env : String → ToolEnv) :
    List String → Int → List (String × FileOutcome) →
    Except PyExn (Int × List (String × FileOutcome))
  | [], gains, outs => .ok (gains, outs.reverse)
  | f :: rest, gains, outs =>
    match processFile (env f) f with
    | .error e => .error e
    | .ok (FileOutcome.skipped p) =>
      convert_images_go env rest gains ((f, FileOutcome.skipped p) :: outs)
    | .ok (FileOutcome.finalized p d) =>
      convert_images_go env rest (gains + d) ((f, FileOutcome.finalized p d) :: outs)

/-- `convert_images(files)`: run the loop with `current_space_gains = 0`,
returning the final running total and the per-file outcomes. -/
def convert_images (env : String → ToolEnv) (files : List String) :
    Except PyExn (Int × List (String × FileOutcome)) :=
  convert_images_go env files 0 []

/-! ## The size ledger (src/main.py lines 575-585) -/

/-- One ledger update: `current_space_gains += old_size - new_size`. -/
def ledgerRecord (total : Int) (before : Int) (after : Int) : Int :=
  total + (before - after)

/-- Running total after recording a sequence of completed jobs'
`(before, after)` sizes, starting from `0`. -/
def ledgerTotal (jobs : List (Int × Int)) : Int :=
  jobs.foldl (fun total job => ledgerRecord total job.1 job.2) 0

/-- A `ToolEnv` in which every external call succeeds: the inspection and
all conversions exit `0`, the true format reads back `JPEG`, the encoded
output exists, and the file shrinks from 100 to 40 bytes. -/
def envOk : ToolEnv :=
  { identifyExit := 0, recoverExit := 0, formatExit := 0, formatStdout := "'JPEG\n",
    pngExit := 0, cjxlExit := 0, jxlOutExists := true, metaExit := 0, titleExit := 0,
    oldSize := 100, newSize := 40 }

/-- Characterization of one classifier comparison round: entry `e` admits
`file` when it equals the file's classifier extension exactly or when its
uppercased form does. -/
def classifierMatches (file : String) (e : String) : Bool :=
  decide (e = classifierExtension file) || decide (pyUpper e = classifierExtension file)

/-- The working path of a file after `restore_filetype`: its relocated path
with the tool-identified extension appended. -/
def restoredPath (env : ToolEnv) (f : String) : String :=
  pyJoin temporaryPath (basename f) ++ "." ++ strDrop (firstLine env.formatStdout) 1

/-! ## Helper lemmas -/

theorem subprocessRun_zero : subprocessRun 0 true = .ok 0 := rfl

theorem subprocessRun_ne_zero {c : Nat} (hc : c ≠ 0) :
    subprocessRun c true = .error (PyExn.calledProcessError c) := by
  simp [subprocessRun, hc]

theorem is_corrupt_zero (p : String) : is_corrupt 0 p = .ok false := rfl

theorem restore_filetype_zero (s p : String) :
    restore_filetype 0 s p = .ok (p ++ "." ++ strDrop (firstLine s) 1) := rfl

theorem convert_to_png_zero (p : String) : convert_to_png 0 p = .ok (p ++ ".PNG") := rfl

theorem convert_to_jpegxl_all_zero (b : Bool) (p : String) :
    convert_to_jpegxl 0 0 0 b p = .ok (p ++ ".jxl") := by
  cases b <;> rfl

/-- Lifting a single file's uncaught exception to the whole run. -/
theorem convert_images_singleton_error (env : String → ToolEnv) (f : String) (e : PyExn)
    (he : processFile (env f) f = .error e) :
    convert_images env [f] = .error e := by
  simp [convert_images, convert_images_go, he]

/-- On a clean (not-corrupt) path with successful format probe and PNG
conversion, `processFile` reduces to the final encode applied to the
restored path, normalized through `.PNG` exactly when that path's extension
is not encoder-supported, followed by the post-encode size read that exits
when the encoded output is missing. -/
theorem processFile_clean (env : ToolEnv) (f : String)
    (h1 : env.identifyExit = 0) (h2 : env.formatExit = 0) (h3 : env.pngExit = 0) :
    processFile env f =
      match convert_to_jpegxl env.cjxlExit env.metaExit env.titleExit env.jxlOutExists
          (if is_supported_by_jpegxl (restoredPath env f) = true then restoredPath env f
           else restoredPath env f ++ ".PNG") with
      | .error e => .error e
      | .ok final =>
        if env.jxlOutExists then
          .ok (FileOutcome.finalized (pyJoin (dirname f) (basename final))
            ((env.oldSize : Int) - (env.newSize : Int)))
        else .error (PyExn.systemExit 1) := by
  rw [processFile, finishFile, h1, h2, h3, is_corrupt_zero, restore_filetype_zero]
  cases hsup : is_supported_by_jpegxl (restoredPath env f) <;>
    simp only [restoredPath] at hsup <;> simp [restoredPath, hsup, convert_to_png_zero]

/-! ## Claim theorems -/

/-- C2 (code bug evidence): `is_corrupt` never reports corruption.  Because
`subprocess.run` is called with `check=True`, an inspection exit status of 1
(the decode-warning signal) raises `CalledProcessError` before the
`returncode == 1` comparison can run, so the claimed corrupt verdict (`.ok
true`) is unreachable; exit status 0 yields the ok verdict as claimed. -/
theorem is_corrupt_exit_one_raises :
    is_corrupt 1 "corrupt.jpg" = .error (PyExn.calledProcessError 1) ∧
    is_corrupt 0 "corrupt.jpg" = .ok false :=
  ⟨rfl, rfl⟩

/-- C3 (counterexample): a non-zero exit status of the `cjxl` encode call is
fatal — `check=True` raises `CalledProcessError` — contradicting the claim
that it is not treated as fatal. -/
theorem convert_to_jpegxl_nonzero_exit_raises :
    convert_to_jpegxl 1 0 0 true "a.png" = .error (PyExn.calledProcessError 1) :=
  rfl

/-- C3 (amended): output existence after the encode call gates the metadata
transfer, title stamp and input deletion, but only when the call itself
exits 0; a non-zero exit of the encode call raises `CalledProcessError`
(`check=True`) and aborts rather than being merely logged. -/
theorem convert_to_jpegxl_exit_behavior (cjxlExit metaExit titleExit : Nat)
    (jxlOutExists : Bool) (input : String) (h : cjxlExit ≠ 0) :
    convert_to_jpegxl cjxlExit metaExit titleExit jxlOutExists input =
      .error (PyExn.calledProcessError cjxlExit) := by
  simp [convert_to_jpegxl, subprocessRun_ne_zero h]

/-- C3 witness: the amended behavior at a concrete failing encode call. -/
theorem convert_to_jpegxl_exit_behavior_witness :
    convert_to_jpegxl 2 7 8 false "b.png" = .error (PyExn.calledProcessError 2) :=
  convert_to_jpegxl_exit_behavior 2 7 8 false "b.png" (by decide)

/-- C6 (code bug evidence): a corrupt input never reaches the recovery /
skip branch.  The inspection's decode-warning exit status 1 raises
`CalledProcessError` inside `is_corrupt` (`check=True`), outside the
`try`/`except` that guards only `recover_image`, so the whole run aborts
instead of the file ending `Skipped` with the run continuing. -/
theorem convert_images_corrupt_file_aborts_run :
    convert_images (fun _ => { envOk with identifyExit := 1, recoverExit := 1 }) ["d/a.jpg"] =
      .error (PyExn.calledProcessError 1) :=
  rfl

/-- C1 (counterexample): a failing metadata transfer (exiftool exit 1 while
the encoded output exists) aborts the whole conversion run with an uncaught
`CalledProcessError` — it is not a non-fatal warning, and neither the job's
finalization nor the ledger update happens. -/
theorem convert_images_metadata_failure_stops_run :
    convert_images (fun _ => { envOk with metaExit := 1 }) ["d/a.jpg"] =
      .error (PyExn.calledProcessError 1) :=
  rfl

/-- C1 (amended): a non-zero exit of the metadata-transfer or title-stamp
call raises `CalledProcessError` through `convert_to_jpegxl` and
`convert_images`; the run aborts with that error (so the file is never
finalized and no ledger delta is recorded), instead of continuing. -/
theorem convert_images_metadata_failure_aborts (env : ToolEnv) (f : String)
    (h1 : env.identifyExit = 0) (h2 : env.formatExit = 0) (h3 : env.pngExit = 0)
    (h4 : env.cjxlExit = 0) (h5 : env.jxlOutExists = true)
    (h6 : env.metaExit ≠ 0 ∨ (env.metaExit = 0 ∧ env.titleExit ≠ 0)) :
    ∃ c, c ≠ 0 ∧
      convert_images (fun _ => env) [f] = .error (PyExn.calledProcessError c) := by
  have hjxl : ∀ s, ∃ c, c ≠ 0 ∧
      convert_to_jpegxl env.cjxlExit env.metaExit env.titleExit env.jxlOutExists s =
        .error (PyExn.calledProcessError c) := by
    intro s
    rcases h6 with hm | ⟨hm, ht⟩
    · exact ⟨env.metaExit, hm, by
        rw [h4, h5]
        simp [convert_to_jpegxl, transfer_metadata, subprocessRun_zero, subprocessRun_ne_zero hm]⟩
    · exact ⟨env.titleExit, ht, by
        rw [h4, h5, hm]
        simp [convert_to_jpegxl, transfer_metadata, add_exif_title, subprocessRun_zero,
          subprocessRun_ne_zero ht]⟩
  obtain ⟨c, hc, hjx⟩ := hjxl
    (if is_supported_by_jpegxl (restoredPath env f) = true then restoredPath env f
     else restoredPath env f ++ ".PNG")
  refine ⟨c, hc, convert_images_singleton_error _ _ _ ?_⟩
  rw [processFile_clean env f h1 h2 h3, hjx]

/-- C1 witness: the amended behavior at a concrete environment in which the
title stamp fails after a successful metadata transfer. -/
theorem convert_images_metadata_failure_aborts_witness :
    ∃ c, c ≠ 0 ∧
      convert_images (fun _ => { envOk with titleExit := 3 }) ["d/a.jpg"] =
        .error (PyExn.calledProcessError c) :=
  convert_images_metadata_failure_aborts { envOk with titleExit := 3 } "d/a.jpg"
    rfl rfl rfl rfl rfl (Or.inr ⟨rfl, by decide⟩)

/-- C9: the ledger's running total is the sum of the per-job
`before - after` deltas, and recording the jobs in any permuted order leaves
the final total unchanged. -/
theorem ledgerTotal_sum_and_perm (jobs jobs' : List (Int × Int)) (h : jobs.Perm jobs') :
    ledgerTotal jobs = (jobs.map (fun j => j.1 - j.2)).sum ∧
    ledgerTotal jobs = ledgerTotal jobs' := by
  have hsum : ∀ l : List (Int × Int), ledgerTotal l = (l.map (fun j => j.1 - j.2)).sum := by
    intro l
    have : ∀ (l : List (Int × Int)) (t : Int),
        l.foldl (fun total job => ledgerRecord total job.1 job.2) t =
          t + (l.map (fun j => j.1 - j.2)).sum := by
      intro l
      induction l with
      | nil => simp
      | cons j js ih =>
        intro t
        rw [List.foldl_cons, ih]
        simp [ledgerRecord, add_assoc]
    simpa [ledgerTotal] using this l 0
  refine ⟨hsum jobs, ?_⟩
  rw [hsum jobs, hsum jobs']
  exact (h.map (fun j => j.1 - j.2)).sum_eq

/-- C9 witness: recording `(100, 40)` then `(50, 60)` yields `50`, and
swapping the two records leaves the total unchanged. -/
theorem ledgerTotal_sum_and_perm_witness :
    ledgerTotal [((100 : Int), (40 : Int)), (50, 60)] = 50 ∧
    ledgerTotal [((100 : Int), (40 : Int)), (50, 60)] = ledgerTotal [(50, 60), (100, 40)] := by
  have h := ledgerTotal_sum_and_perm [((100 : Int), (40 : Int)), (50, 60)]
    [(50, 60), (100, 40)] (by decide)
  exact ⟨by rw [h.1]; decide, h.2⟩

theorem abs_div_lt_pow_iff (q : ℚ) (k : ℕ) :
    |q / 1024| < 1024 ^ k ↔ |q| < 1024 ^ (k + 1) := by
  rw [abs_div, abs_of_pos (show (0 : ℚ) < 1024 by norm_num),
    div_lt_iff₀ (show (0 : ℚ) < 1024 by norm_num), ← pow_succ]

theorem abs_lt_pow_mono {q : ℚ} {k m : ℕ} (h : |q| < 1024 ^ k) (hk : k ≤ m) :
    |q| < 1024 ^ m :=
  lt_of_lt_of_le h (pow_le_pow_right₀ (by norm_num) hk)

theorem readable_bytes_go_nil (q : ℚ) (b : Bool) :
    readable_bytes_go q b [] = .ok none := rfl

/-- Once the value is a float (`isInt = false`), a loop step never
overflows: it returns on a small magnitude and divides otherwise. -/
theorem readable_bytes_go_false_cons (q : ℚ) (unit : String) (units : List String) :
    readable_bytes_go q false (unit :: units) =
      if |q| < 1024 then .ok (some (q, unit))
      else readable_bytes_go (q / 1024) false units := by
  simp [readable_bytes_go]

theorem readable_bytes_go_false_four (q : ℚ) :
    ((∃ p, readable_bytes_go q false ["KB", "MB", "GB", "TB"] = .ok (some p)) ↔
      |q| < 1024 ^ 4) ∧
    (readable_bytes_go q false ["KB", "MB", "GB", "TB"] = .ok none ↔ 1024 ^ 4 ≤ |q|) := by
  rw [readable_bytes_go_false_cons, readable_bytes_go_false_cons,
    readable_bytes_go_false_cons, readable_bytes_go_false_cons, readable_bytes_go_nil]
  split_ifs with a1 a2 a3 a4
  · have hlt : |q| < 1024 ^ 4 :=
      abs_lt_pow_mono ((pow_one (1024 : ℚ)) ▸ a1) (by norm_num)
    exact ⟨iff_of_true ⟨(q, "KB"), rfl⟩ hlt,
      iff_of_false (by simp) (not_le.mpr hlt)⟩
  · have hlt : |q| < 1024 ^ 4 :=
      abs_lt_pow_mono ((abs_div_lt_pow_iff q 1).mp ((pow_one (1024 : ℚ)) ▸ a2)) (by norm_num)
    exact ⟨iff_of_true ⟨(q / 1024, "MB"), rfl⟩ hlt,
      iff_of_false (by simp) (not_le.mpr hlt)⟩
  · have hlt : |q| < 1024 ^ 4 :=
      abs_lt_pow_mono ((abs_div_lt_pow_iff q 2).mp
        ((abs_div_lt_pow_iff (q / 1024) 1).mp ((pow_one (1024 : ℚ)) ▸ a3))) (by norm_num)
    exact ⟨iff_of_true ⟨(q / 1024 / 1024, "GB"), rfl⟩ hlt,
      iff_of_false (by simp) (not_le.mpr hlt)⟩
  · have hlt : |q| < 1024 ^ 4 :=
      (abs_div_lt_pow_iff q 3).mp
        ((abs_div_lt_pow_iff (q / 1024) 2).mp
          ((abs_div_lt_pow_iff (q / 1024 / 1024) 1).mp ((pow_one (1024 : ℚ)) ▸ a4)))
    exact ⟨iff_of_true ⟨(q / 1024 / 1024 / 1024, "TB"), rfl⟩ hlt,
      iff_of_false (by simp) (not_le.mpr hlt)⟩
  · have hge : ¬ |q| < 1024 ^ 4 := fun hq =>
      a4 ((pow_one (1024 : ℚ)) ▸ ((abs_div_lt_pow_iff (q / 1024 / 1024) 1).mpr
        ((abs_div_lt_pow_iff (q / 1024) 2).mpr ((abs_div_lt_pow_iff q 3).mpr hq))))
    exact ⟨iff_of_false (by simp) hge, iff_of_true rfl (not_lt.mp hge)⟩

/-- The first division's int-to-float conversion overflows for any integer
of magnitude at least `2 ^ 1024 - 2 ^ 970`: the function raises
`OverflowError` instead of walking the rest of the unit loop. -/
theorem readable_bytes_overflow {n : Int} (h : (2 : Int) ^ 1024 - 2 ^ 970 ≤ |n|) :
    readable_bytes n = .error PyExn.overflowError := by
  have hq : floatOverflowBound ≤ |(n : ℚ)| := by
    rw [floatOverflowBound, ← Int.cast_abs]
    exact_mod_cast h
  have h1 : ¬ |(n : ℚ)| < 1024 := by
    refine not_lt.mpr (le_trans ?_ hq)
    rw [floatOverflowBound]
    norm_num
  rw [readable_bytes]
  simp only [readable_bytes_go]
  rw [if_neg h1, if_pos ⟨trivial, hq⟩]

/-- C10 (counterexample): it is not true that every input of magnitude at
least `1024 ^ 5` makes the unit loop exhaust and the function yield no
string: at `2 ^ 1024` the first `num_of_bytes /= 1024.0` raises
`OverflowError` (the int is too large to convert to float), so the function
raises instead of returning `None`. -/
theorem readable_bytes_huge_input_raises :
    readable_bytes (2 ^ 1024) = Except.error PyExn.overflowError ∧
    ¬ readable_bytes (2 ^ 1024) = Except.ok none := by
  have h : readable_bytes (2 ^ 1024) = Except.error PyExn.overflowError :=
    @readable_bytes_overflow (2 ^ 1024) (by
      rw [abs_of_nonneg (by positivity)]
      norm_num)
  refine ⟨h, ?_⟩
  rw [h]
  simp

/-- C10 (amended): `readable_bytes` returns a formatted result exactly when
the magnitude is below `1024 ^ 5`; for magnitudes from `1024 ^ 5` up to the
float-conversion bound `2 ^ 1024 - 2 ^ 970` the loop over units exhausts
and the function yields no string (None); from that bound on, the first
division's int-to-float conversion raises `OverflowError` instead. -/
theorem readable_bytes_spec (num_of_bytes : Int) :
    ((∃ p, readable_bytes num_of_bytes = Except.ok (some p)) ↔
      |num_of_bytes| < 1024 ^ 5) ∧
    (readable_bytes num_of_bytes = Except.ok none ↔
      1024 ^ 5 ≤ |num_of_bytes| ∧ |num_of_bytes| < 2 ^ 1024 - 2 ^ 970) ∧
    (readable_bytes num_of_bytes = Except.error PyExn.overflowError ↔
      2 ^ 1024 - 2 ^ 970 ≤ |num_of_bytes|) := by
  have hlt5 : |(num_of_bytes : ℚ)| < 1024 ^ 5 ↔ |num_of_bytes| < 1024 ^ 5 := by
    rw [← Int.cast_abs]
    exact_mod_cast Iff.rfl
  have hBiff : floatOverflowBound ≤ |(num_of_bytes : ℚ)| ↔
      (2 : Int) ^ 1024 - 2 ^ 970 ≤ |num_of_bytes| := by
    rw [floatOverflowBound, ← Int.cast_abs]
    exact_mod_cast Iff.rfl
  by_cases hOv : floatOverflowBound ≤ |(num_of_bytes : ℚ)|
  · have herr := readable_bytes_overflow (hBiff.mp hOv)
    have hbig : (1024 : Int) ^ 5 ≤ |num_of_bytes| :=
      le_trans (by norm_num) (hBiff.mp hOv)
    refine ⟨?_, ?_, ?_⟩
    · rw [herr]
      exact iff_of_false (by simp) (not_lt.mpr hbig)
    · rw [herr]
      exact iff_of_false (by simp) (fun hc => absurd (hBiff.mp hOv) (not_le.mpr hc.2))
    · rw [herr]
      exact iff_of_true rfl (hBiff.mp hOv)
  · have hsmallB : |num_of_bytes| < 2 ^ 1024 - 2 ^ 970 := by
      by_contra hc
      exact hOv (hBiff.mpr (not_lt.mp hc))
    by_cases h1 : |(num_of_bytes : ℚ)| < 1024
    · have hsome : readable_bytes num_of_bytes =
          .ok (some ((num_of_bytes : ℚ), "bytes")) := by
        rw [readable_bytes]
        simp only [readable_bytes_go]
        rw [if_pos h1]
      have hlt : |num_of_bytes| < 1024 ^ 5 :=
        hlt5.mp (abs_lt_pow_mono ((pow_one (1024 : ℚ)) ▸ h1) (by norm_num))
      refine ⟨?_, ?_, ?_⟩
      · rw [hsome]
        exact iff_of_true ⟨((num_of_bytes : ℚ), "bytes"), rfl⟩ hlt
      · rw [hsome]
        exact iff_of_false (by simp) (fun hc => absurd hlt (not_lt.mpr hc.1))
      · rw [hsome]
        exact iff_of_false (by simp) (fun hc => hOv (hBiff.mpr hc))
    · have hstep : readable_bytes num_of_bytes =
          readable_bytes_go ((num_of_bytes : ℚ) / 1024) false ["KB", "MB", "GB", "TB"] := by
        rw [readable_bytes]
        simp only [readable_bytes_go]
        rw [if_neg h1, if_neg (fun hc => hOv hc.2)]
      obtain ⟨hfsome, hfnone⟩ := readable_bytes_go_false_four ((num_of_bytes : ℚ) / 1024)
      have hconv : |(num_of_bytes : ℚ) / 1024| < 1024 ^ 4 ↔
          |(num_of_bytes : ℚ)| < 1024 ^ 5 := abs_div_lt_pow_iff _ 4
      refine ⟨?_, ?_, ?_⟩
      · rw [hstep, hfsome, hconv, hlt5]
      · rw [hstep, hfnone]
        constructor
        · intro hge
          refine ⟨?_, hsmallB⟩
          have : ¬ |num_of_bytes| < 1024 ^ 5 := fun hc =>
            absurd (hconv.mpr (hlt5.mpr hc)) (not_lt.mpr hge)
          exact not_lt.mp this
        · rintro ⟨hge, _⟩
          refine not_lt.mp (fun hc => ?_)
          exact absurd (hlt5.mp (hconv.mp hc)) (not_lt.mpr hge)
      · rw [hstep]
        constructor
        · intro herr
          by_cases hc : |(num_of_bytes : ℚ) / 1024| < 1024 ^ 4
          · obtain ⟨p, hp⟩ := hfsome.mpr hc
            rw [hp] at herr
            exact absurd herr (by simp)
          · rw [hfnone.mpr (not_lt.mp hc)] at herr
            exact absurd herr (by simp)
        · intro hge
          exact absurd (hBiff.mpr hge) hOv

theorem classifierInner_foldl (file : String) (exts : List String) (acc : List String) :
    exts.foldl (classifierInner file) acc =
      acc ++ (exts.filter (classifierMatches file)).map (fun _ => file) := by
  induction exts generalizing acc with
  | nil => simp
  | cons e es ih =>
    rw [List.foldl_cons, List.filter_cons, ih]
    by_cases h1 : e = classifierExtension file
    · simp [classifierInner, classifierMatches, h1]
    · by_cases h2 : pyUpper e = classifierExtension file
      · simp [classifierInner, classifierMatches, h1, h2]
      · simp [classifierInner, classifierMatches, h1, h2]

theorem find_specific_types_eq_flatMap (files exts : List String) :
    find_specific_types files exts =
      files.flatMap (fun f => (exts.filter (classifierMatches f)).map (fun _ => f)) := by
  suffices h : ∀ acc,
      files.foldl (fun result file => exts.foldl (classifierInner file) result) acc =
        acc ++ files.flatMap (fun f => (exts.filter (classifierMatches f)).map (fun _ => f)) by
    simpa [find_specific_types] using h []
  intro acc
  induction files generalizing acc with
  | nil => simp
  | cons f fs ih =>
    rw [List.foldl_cons, List.flatMap_cons, classifierInner_foldl, ih, List.append_assoc]

/-- C4 (counterexample): the classifier is not case-insensitive.  The file
`a.Jpg` has extension `Jpg`, which matches the allow-list entry `jpg` up to
case, yet `find_specific_types` excludes it: only an exact match or a match
against the entry's fully-uppercased form is accepted. -/
theorem find_specific_types_mixed_case_missed :
    find_specific_types ["a.Jpg"] ["jpg"] = [] ∧
    pyUpper (classifierExtension "a.Jpg") = pyUpper "jpg" :=
  ⟨rfl, rfl⟩

/-- C4 (amended): a path is included in the classifier's output exactly when
it occurs in the input list and its extension equals some allow-list entry
exactly, or equals the fully-uppercased form of some entry. -/
theorem find_specific_types_mem_iff (files extensions : List String) (p : String) :
    p ∈ find_specific_types files extensions ↔
      p ∈ files ∧ ∃ e ∈ extensions,
        (e = classifierExtension p ∨ pyUpper e = classifierExtension p) := by
  rw [find_specific_types_eq_flatMap]
  simp only [List.mem_flatMap, List.mem_map, List.mem_filter, classifierMatches,
    Bool.or_eq_true, decide_eq_true_eq]
  constructor
  · rintro ⟨f, hf, e, ⟨he, hmatch⟩, rfl⟩
    exact ⟨hf, e, he, hmatch⟩
  · rintro ⟨hp, e, he, hmatch⟩
    exact ⟨p, hp, e, ⟨he, hmatch⟩, rfl⟩

/-- C5 (counterexample): a file may appear more than once in the
classifier's output when several allow-list entries match it — here `a.JPG`
is appended once for the exact entry `JPG` and once more for the entry `jpg`
whose uppercased form also matches — so the output is not a subsequence of
the input with each occurrence appearing at most once. -/
theorem find_specific_types_duplicates :
    find_specific_types ["a.JPG"] ["JPG", "jpg"] = ["a.JPG", "a.JPG"] ∧
    ¬ List.Sublist (find_specific_types ["a.JPG"] ["JPG", "jpg"]) ["a.JPG"] := by
  refine ⟨rfl, ?_⟩
  decide

/-- C5 (amended): the classifier appends each input occurrence once per
matching allow-list entry, in input order; whenever every file is matched by
at most one entry, the output is an order-preserving subsequence of the
input with each occurrence appearing at most once. -/
theorem find_specific_types_sublist (files extensions : List String)
    (h : ∀ f ∈ files, (extensions.filter (classifierMatches f)).length ≤ 1) :
    List.Sublist (find_specific_types files extensions) files := by
  rw [find_specific_types_eq_flatMap]
  induction files with
  | nil => simp
  | cons f fs ih =>
    have htail := ih (fun g hg => h g (List.mem_cons_of_mem f hg))
    have hf := h f (List.mem_cons_self f fs)
    rw [List.flatMap_cons]
    rcases hfilter : extensions.filter (classifierMatches f) with _ | ⟨e, rest⟩
    · simpa using htail.cons f
    · rcases rest with _ | ⟨e2, r2⟩
      · simpa using htail.cons₂ f
      · rw [hfilter] at hf
        simp at hf

/-- C5 witness: a run of the classifier in which every file matches at most
one allow-list entry, whose output is a subsequence of the input. -/
theorem find_specific_types_sublist_witness :
    List.Sublist (find_specific_types ["a.jpg", "b.txt", "c.PNG"] ["jpg", "png"])
      ["a.jpg", "b.txt", "c.PNG"] :=
  find_specific_types_sublist ["a.jpg", "b.txt", "c.PNG"] ["jpg", "png"] (by decide)

theorem prioritize_foldl (sz : String → Nat) (files : List String)
    (a b c d : List String) :
    files.foldl (prioritizeStep sz) (a, b, c, d) =
      (a ++ files.filter (fun f => is_jpeg_file f && is_small_file sz f),
       b ++ files.filter (fun f => is_jpeg_file f && !is_small_file sz f),
       c ++ files.filter (fun f => !is_jpeg_file f && is_small_file sz f),
       d ++ files.filter (fun f => !is_jpeg_file f && !is_small_file sz f)) := by
  induction files generalizing a b c d with
  | nil => simp
  | cons f fs ih =>
    rw [List.foldl_cons]
    cases hj : is_jpeg_file f <;> cases hs : is_small_file sz f <;>
      simp [prioritizeStep, hj, hs, ih, List.filter_cons]

theorem filter_and_eq_filter_filter (p q : String → Bool) (l : List String) :
    l.filter (fun f => p f && q f) = (l.filter p).filter q := by
  rw [List.filter_filter]
  exact List.filter_congr (fun a _ => by rw [Bool.and_comm])

/-- C7: the prioritizer returns exactly the concatenation, in the fixed
order small-JPEG, large-JPEG, small-other, large-other, of the four stable
(order-preserving) partitions of its input — where JPEG means extension
`JPEG`/`JPG` up to case and small means size at most 1,000,000 bytes,
boundary included — and is therefore a permutation of its input. -/
theorem prioritize_list_spec (sz : String → Nat) (files : List String) :
    prioritize_list sz files =
      files.filter (fun f => is_jpeg_file f && is_small_file sz f) ++
      files.filter (fun f => is_jpeg_file f && !is_small_file sz f) ++
      files.filter (fun f => !is_jpeg_file f && is_small_file sz f) ++
      files.filter (fun f => !is_jpeg_file f && !is_small_file sz f) ∧
    (prioritize_list sz files).Perm files := by
  have heq : prioritize_list sz files =
      files.filter (fun f => is_jpeg_file f && is_small_file sz f) ++
      files.filter (fun f => is_jpeg_file f && !is_small_file sz f) ++
      files.filter (fun f => !is_jpeg_file f && is_small_file sz f) ++
      files.filter (fun f => !is_jpeg_file f && !is_small_file sz f) := by
    rw [prioritize_list, prioritize_foldl]
    simp
  refine ⟨heq, ?_⟩
  rw [heq]
  have pj : (files.filter (fun f => is_jpeg_file f && is_small_file sz f) ++
      files.filter (fun f => is_jpeg_file f && !is_small_file sz f)).Perm
      (files.filter is_jpeg_file) := by
    rw [filter_and_eq_filter_filter is_jpeg_file (fun f => is_small_file sz f),
      filter_and_eq_filter_filter is_jpeg_file (fun f => !is_small_file sz f)]
    exact List.filter_append_perm _ _
  have pn : (files.filter (fun f => !is_jpeg_file f && is_small_file sz f) ++
      files.filter (fun f => !is_jpeg_file f && !is_small_file sz f)).Perm
      (files.filter (fun f => !is_jpeg_file f)) := by
    rw [filter_and_eq_filter_filter (fun f => !is_jpeg_file f) (fun f => is_small_file sz f),
      filter_and_eq_filter_filter (fun f => !is_jpeg_file f) (fun f => !is_small_file sz f)]
    exact List.filter_append_perm _ _
  have hassoc : files.filter (fun f => is_jpeg_file f && is_small_file sz f) ++
      files.filter (fun f => is_jpeg_file f && !is_small_file sz f) ++
      files.filter (fun f => !is_jpeg_file f && is_small_file sz f) ++
      files.filter (fun f => !is_jpeg_file f && !is_small_file sz f) =
      (files.filter (fun f => is_jpeg_file f && is_small_file sz f) ++
        files.filter (fun f => is_jpeg_file f && !is_small_file sz f)) ++
      (files.filter (fun f => !is_jpeg_file f && is_small_file sz f) ++
        files.filter (fun f => !is_jpeg_file f && !is_small_file sz f)) := by
    rw [List.append_assoc]
  rw [hassoc]
  exact (pj.append pn).trans (List.filter_append_perm _ _)

/-- C8: on a clean pipeline pass whose encoded output exists, the PNG
normalization step runs exactly when the restored extension is not
encoder-supported (case-insensitively): an unsupported restored path gains
a `.PNG` intermediate suffix before the final `.jxl`, while a supported one
goes to the encoder untouched. -/
theorem processFile_normalizes_iff_unsupported (env : ToolEnv) (f : String)
    (h1 : env.identifyExit = 0) (h2 : env.formatExit = 0) (h3 : env.pngExit = 0)
    (h4 : env.cjxlExit = 0) (h5 : env.metaExit = 0) (h6 : env.titleExit = 0)
    (h7 : env.jxlOutExists = true) :
    processFile env f =
      .ok (FileOutcome.finalized
        (pyJoin (dirname f)
          (basename
            ((if is_supported_by_jpegxl (restoredPath env f) = true then restoredPath env f
              else restoredPath env f ++ ".PNG") ++ ".jxl")))
        ((env.oldSize : Int) - (env.newSize : Int))) := by
  rw [processFile_clean env f h1 h2 h3, h4, h5, h6, h7, convert_to_jpegxl_all_zero]
  rfl

/-- C8 witness: a file whose restored extension is `BMP` (unsupported) picks
up the `.PNG` intermediate before encoding, while one restored to `JPEG`
(supported) skips the normalization step entirely. -/
theorem processFile_normalizes_iff_unsupported_witness :
    processFile { envOk with formatStdout := "'BMP\n" } "d/photo.bmp" =
      .ok (FileOutcome.finalized "d/photo.bmp.BMP.PNG.jxl" 60) ∧
    processFile envOk "d/photo.jpg" =
      .ok (FileOutcome.finalized "d/photo.jpg.JPEG.jxl" 60) := by
  constructor
  · rw [processFile_normalizes_iff_unsupported { envOk with formatStdout := "'BMP\n" }
      "d/photo.bmp" rfl rfl rfl rfl rfl rfl rfl]
    rfl
  · rw [processFile_normalizes_iff_unsupported envOk "d/photo.jpg" rfl rfl rfl rfl rfl rfl rfl]
    rfl

end JXLScript
